import Mathlib

/-!
Verification of `src/pages.c` (jemalloc virtual-memory layer)

A shallow embedding of the page-level operations `pages_map`, `pages_unmap`,
`pages_trim`, `pages_commit`, `pages_decommit`, `pages_purge` and `pages_boot`.

* Pointers and `size_t` values are natural numbers; arithmetic that the C code
  performs on `size_t`/`uintptr_t` is reduced modulo `2 ^ w`.
* The operating system is a record of transition functions over an abstract
  state; every system call the code makes is also appended to a call log, and
  every line given to `malloc_printf` to an output log.
* `abort()` is an outcome of its own.
* The embedding is the build the file compiles in: `_WIN32` undefined
  (`pages_boot` writes `mmap_flags`, which only exists without `_WIN32`) and
  `JEMALLOC_ENABLE_OVERCOMMIT` defined (line 16).  Only `pages_purge` keeps its
  preprocessor alternatives, as a build description.
-/

namespace Pages

/-! ## Constants of the platform headers (Linux values) -/

def PROT_NONE : Nat := 0
def PROT_READ : Nat := 1
def PROT_WRITE : Nat := 2
def MAP_PRIVATE : Nat := 0x02
def MAP_FIXED : Nat := 0x10
def MAP_ANON : Nat := 0x20
def MAP_NORESERVE : Nat := 0x4000
def MADV_DONTNEED : Nat := 4
def MADV_FREE : Nat := 8
def MEM_RESET : Nat := 0x80000
def PAGE_READWRITE : Nat := 0x04
def EINVAL : Int := 22
def ENOMEM : Int := 12

/-- The null pointer. -/
def NULL : Nat := 0

/-- The error value of mmap, `(void *)-1`, in a `w`-bit address space. -/
def MAP_FAILED (w : Nat) : Nat := 2 ^ w - 1

/-! ## Constants defined in `pages.c` -/

def PAGES_PROT_COMMIT : Nat := PROT_READ ||| PROT_WRITE
def PAGES_PROT_DECOMMIT : Nat := PROT_NONE
def ANDROID_PR_SET_VMA : Nat := 0x53564d41
def ANDROID_PR_SET_VMA_ANON_NAME : Nat := 0

/-! ## Environment of the module -/

/-- What `pages.c` takes from the rest of the allocator and from the compiler:
the width of `size_t`, whether `assert` is compiled in (`config_debug`) and the
line it prints, the `opt_abort` option, the `__ANDROID__` symbol, and the
`buferror` formatter of an errno value. -/
structure Config where
  w : Nat
  config_debug : Bool
  assert_diag : String → String
  opt_abort : Bool
  android : Bool
  buferror : Int → String

/-- The preprocessor symbols that select the body of `pages_purge`. -/
structure PurgeBuild where
  win32 : Bool
  have_madvise : Bool
  purge_madvise_dontneed : Bool
  purge_madvise_free : Bool

/-- A system call as the code issues it, with its arguments. -/
inductive SysCall where
  | mmap (addr len prot flags : Nat) (fd : Int) (off : Nat)
  | munmap (addr len : Nat)
  | madvise (addr len advice : Nat)
  | prctl (option arg2 addr len : Nat) (name : String)
  | virtualAlloc (addr size type protect : Nat)
  deriving DecidableEq, Repr

/-- The operating system: each call maps a state and the arguments to a result
and a new state. -/
structure OS (σ : Type) where
  mmap : σ → Nat → Nat → Nat → Nat → Int → Nat → Nat × σ
  munmap : σ → Nat → Nat → Int × σ
  madvise : σ → Nat → Nat → Nat → Int × σ
  prctl : σ → Nat → Nat → Nat → Nat → String → Int × σ
  virtualAlloc : σ → Nat → Nat → Nat → Nat → Nat × σ
  get_errno : σ → Int

/-- The world a call of the module runs in: the OS state, the log of system
calls issued so far and the lines written by `malloc_printf`. -/
structure World (σ : Type) where
  os : σ
  trace : List SysCall
  out : List String

/-- A call either returns a value in a new world or ends in `abort()`. -/
inductive Outcome (σ : Type) (α : Type) where
  | ret (a : α) (s : World σ)
  | aborted (s : World σ)

/-- Sequencing: an aborted run stays aborted. -/
def Outcome.bind {σ α β : Type} (m : Outcome σ α) (f : α → World σ → Outcome σ β) :
    Outcome σ β :=
  match m with
  | Outcome.ret a s => f a s
  | Outcome.aborted s => Outcome.aborted s

/-- The world a run ends in. -/
def Outcome.world {σ α : Type} : Outcome σ α → World σ
  | Outcome.ret _ s => s
  | Outcome.aborted s => s

/-- Whether a run returned to its caller. -/
def Outcome.returned {σ α : Type} : Outcome σ α → Bool
  | Outcome.ret _ _ => true
  | Outcome.aborted _ => false

/-- The value a run returned, if it returned. -/
def Outcome.value {σ α : Type} : Outcome σ α → Option α
  | Outcome.ret a _ => some a
  | Outcome.aborted _ => none

/-- The module's static variables (lines 14 and 17). -/
structure PagesState where
  mmap_flags : Nat
  os_overcommits : Bool
  deriving DecidableEq, Repr

/-! ## System-call wrappers: perform the call and log it -/

def sys_mmap {σ : Type} (os : OS σ) (s : World σ) (addr len prot flags : Nat) (fd : Int)
    (off : Nat) : Nat × World σ :=
  let r := os.mmap s.os addr len prot flags fd off
  (r.1, { s with os := r.2, trace := s.trace ++ [SysCall.mmap addr len prot flags fd off] })

def sys_munmap {σ : Type} (os : OS σ) (s : World σ) (addr len : Nat) : Int × World σ :=
  let r := os.munmap s.os addr len
  (r.1, { s with os := r.2, trace := s.trace ++ [SysCall.munmap addr len] })

def sys_madvise {σ : Type} (os : OS σ) (s : World σ) (addr len advice : Nat) :
    Int × World σ :=
  let r := os.madvise s.os addr len advice
  (r.1, { s with os := r.2, trace := s.trace ++ [SysCall.madvise addr len advice] })

def sys_prctl {σ : Type} (os : OS σ) (s : World σ) (option arg2 addr len : Nat)
    (name : String) : Int × World σ :=
  let r := os.prctl s.os option arg2 addr len name
  (r.1, { s with os := r.2, trace := s.trace ++ [SysCall.prctl option arg2 addr len name] })

def sys_virtualAlloc {σ : Type} (os : OS σ) (s : World σ) (addr size type protect : Nat) :
    Nat × World σ :=
  let r := os.virtualAlloc s.os addr size type protect
  (r.1, { s with os := r.2, trace := s.trace ++ [SysCall.virtualAlloc addr size type protect] })

/-- The `assert` macro, whose definition is outside `pages.c`: whether it is
compiled in (`config_debug`) and the line it prints are taken from `Config`;
when compiled in, a false condition prints that line and aborts, and in every
other case execution continues. -/
def jassert {σ : Type} (cfg : Config) (e : Bool) (text : String) (s : World σ) :
    Outcome σ Unit :=
  if cfg.config_debug && !e then
    Outcome.aborted { s with out := s.out ++ [cfg.assert_diag text] }
  else Outcome.ret () s

/-- Subtraction of `size_t` values, modulo `2 ^ w`. -/
def wsub (w a b : Nat) : Nat := (a % 2 ^ w + (2 ^ w - b % 2 ^ w)) % 2 ^ w

/-- Addition of `size_t` values, modulo `2 ^ w`. -/
def wadd (w a b : Nat) : Nat := (a + b) % 2 ^ w

/-! ## The functions of `pages.c` -/

/-- Lines 84-107 (`munmap` branch). -/
def pages_unmap {σ : Type} (cfg : Config) (os : OS σ) (s : World σ) (addr size : Nat) :
    Outcome σ Unit :=
  let r := sys_munmap os s addr size
  if r.1 = -1 then
    let buf := cfg.buferror (os.get_errno r.2.os)
    let s2 : World σ :=
      { r.2 with out := r.2.out ++ ["<jemalloc>: Error in munmap(): " ++ buf ++ "\n"] }
    if cfg.opt_abort then Outcome.aborted s2 else Outcome.ret () s2
  else Outcome.ret () r.2

/-- Lines 32-82 (`mmap` branch).  The result is the returned pointer together
with the value left in `*commit`. -/
def pages_map {σ : Type} (cfg : Config) (os : OS σ) (st : PagesState) (s : World σ)
    (addr size : Nat) (_commit : Bool) : Outcome σ (Nat × Bool) :=
  (jassert cfg (size != 0) "size != 0" s).bind fun _ s1 =>
  let commit1 := true
  let prot := if commit1 then PAGES_PROT_COMMIT else PAGES_PROT_DECOMMIT
  let m := sys_mmap os s1 addr size prot st.mmap_flags (-1) 0
  (jassert cfg (m.1 != NULL) "ret != NULL" m.2).bind fun _ s2 =>
  (if m.1 = MAP_FAILED cfg.w then Outcome.ret NULL s2
   else if addr != NULL && m.1 != addr then
     (pages_unmap cfg os s2 m.1 size).bind fun _ s3 => Outcome.ret NULL s3
   else Outcome.ret m.1 s2).bind fun ret s4 =>
  (if cfg.android && ret != NULL then
     Outcome.ret ()
       (sys_prctl os s4 ANDROID_PR_SET_VMA ANDROID_PR_SET_VMA_ANON_NAME ret size
         "libc_malloc").2
   else Outcome.ret () s4).bind fun _ s5 =>
  (jassert cfg (ret == NULL || (addr == NULL && ret != addr) || (addr != NULL && ret == addr))
     "ret == NULL || (addr == NULL && ret != addr) || (addr != NULL && ret == addr)"
     s5).bind fun _ s6 =>
  Outcome.ret (ret, commit1) s6

/-- The `trailsize` of `pages_trim` (line 130), in `size_t` arithmetic. -/
def trim_trailsize (w alloc_size leadsize size : Nat) : Nat :=
  wsub w (wsub w alloc_size leadsize) size

/-- The condition of the assertion of `pages_trim` (line 115), as the code
evaluates it. -/
def trim_guard (w alloc_size leadsize size : Nat) : Bool :=
  decide (alloc_size ≥ wadd w leadsize size)

/-- Lines 109-139 (branch without `_WIN32`).  `*commit` is not written. -/
def pages_trim {σ : Type} (cfg : Config) (os : OS σ) (s : World σ)
    (addr alloc_size leadsize size : Nat) (commit : Bool) : Outcome σ (Nat × Bool) :=
  let ret := wadd cfg.w addr leadsize
  (jassert cfg (trim_guard cfg.w alloc_size leadsize size) "alloc_size >= leadsize + size"
     s).bind fun _ s1 =>
  let trailsize := trim_trailsize cfg.w alloc_size leadsize size
  (if leadsize != 0 then pages_unmap cfg os s1 addr leadsize
   else Outcome.ret () s1).bind fun _ s2 =>
  (if trailsize != 0 then pages_unmap cfg os s2 (wadd cfg.w ret size) trailsize
   else Outcome.ret () s2).bind fun _ s3 =>
  Outcome.ret (ret, commit) s3

/-- Lines 141-170 with `JEMALLOC_ENABLE_OVERCOMMIT` defined: the body is
`return (true);` and nothing else is compiled. -/
def pages_commit_impl {σ : Type} (s : World σ) (_addr _size : Nat) (_commit : Bool) :
    Outcome σ Bool :=
  Outcome.ret true s

/-- Lines 172-177. -/
def pages_commit {σ : Type} (s : World σ) (addr size : Nat) : Outcome σ Bool :=
  pages_commit_impl s addr size true

/-- Lines 179-184. -/
def pages_decommit {σ : Type} (s : World σ) (addr size : Nat) : Outcome σ Bool :=
  pages_commit_impl s addr size false

/-- Lines 186-213.  The preprocessor chain is followed in the order of the
source; a build with `JEMALLOC_HAVE_MADVISE` and neither purge flag stops at
`#error`, so there is no function (`none`). -/
def pages_purge {σ : Type} (b : PurgeBuild) (os : OS σ) (s : World σ) (addr size : Nat) :
    Option (Outcome σ Bool) :=
  if b.win32 then
    let r := sys_virtualAlloc os s addr size MEM_RESET PAGE_READWRITE
    let unzeroed := true
    some (Outcome.ret unzeroed r.2)
  else if b.have_madvise then
    if b.purge_madvise_dontneed then
      let r := sys_madvise os s addr size MADV_DONTNEED
      let unzeroed := (!true || r.1 != 0)
      some (Outcome.ret unzeroed r.2)
    else if b.purge_madvise_free then
      let r := sys_madvise os s addr size MADV_FREE
      let unzeroed := (!false || r.1 != 0)
      some (Outcome.ret unzeroed r.2)
    else none
  else
    let unzeroed := true
    some (Outcome.ret unzeroed s)

/-- Lines 215-226: `mmap_flags = MAP_PRIVATE | MAP_ANON;` then
`mmap_flags |= MAP_NORESERVE;`.  `os_overcommits` is not written. -/
def pages_boot (st : PagesState) : PagesState :=
  let st1 : PagesState := { st with mmap_flags := MAP_PRIVATE ||| MAP_ANON }
  { st1 with mmap_flags := st1.mmap_flags ||| MAP_NORESERVE }

/-- Calling `pages_boot` a number of times in a row. -/
def pages_boot_n : Nat → PagesState → PagesState
  | 0, st => st
  | n + 1, st => pages_boot (pages_boot_n n st)

/-! ## An operating system whose `munmap` removes exactly the given range -/

/-- State of the address-space model: which addresses are mapped, and errno. -/
structure AddrSpace where
  mapped : Nat → Bool
  errno : Int

/-- Membership of `a` in `[base, base + len)`. -/
def inRange (a base len : Nat) : Bool := decide (base ≤ a) && decide (a < base + len)

/-- No address of `[base, base + len)` is mapped. -/
def rangeFree (m : Nat → Bool) (base len : Nat) : Bool :=
  decide (∀ i, i < len → m (base + i) = false)

/-- The address-space model.  `place` is the kernel's placement decision for a
request (hint, length) in the current address space.  Without `MAP_FIXED` a
mapping is only ever created on a free range inside the address space and never
at NULL; with `MAP_FIXED` it is created at the given address over whatever is
there.  `munmap` removes exactly the given range and fails on a zero length.
The advisory calls leave the address space alone. -/
def exactOS (w : Nat) (place : (Nat → Bool) → Nat → Nat → Nat) : OS AddrSpace where
  mmap s addr len _prot flags _fd _off :=
    if flags &&& MAP_FIXED ≠ 0 then
      (addr, { s with mapped := fun a => s.mapped a || inRange a addr len })
    else
      let r := place s.mapped addr len
      if r ≠ MAP_FAILED w ∧ r ≠ NULL ∧ 0 < len ∧ r + len ≤ 2 ^ w ∧ rangeFree s.mapped r len then
        (r, { s with mapped := fun a => s.mapped a || inRange a r len })
      else (MAP_FAILED w, { s with errno := ENOMEM })
  munmap s addr len :=
    if len = 0 then (-1, { s with errno := EINVAL })
    else (0, { s with mapped := fun a => s.mapped a && !inRange a addr len })
  madvise s _ _ _ := (0, s)
  prctl s _ _ _ _ _ := (0, s)
  virtualAlloc s addr _ _ _ := (addr, s)
  get_errno s := s.errno

/-- The range `[base, base + len)` lies in the `w`-bit address space, its end
included as an address, and every address of it is mapped. -/
def rangeMapped (w : Nat) (m : Nat → Bool) (base len : Nat) : Prop :=
  base + len < 2 ^ w ∧ ∀ a, base ≤ a → a < base + len → m a = true

/-! ## Concrete inputs used to run the embedding -/

/-- A debug build on a 64-bit target with `opt_abort` set. -/
def cfg64 : Config :=
  { w := 64, config_debug := true, assert_diag := fun t => "Failed assertion: " ++ t,
    opt_abort := true, android := false, buferror := fun e => toString e }

/-- The same build with `opt_abort` clear. -/
def cfg64_noabort : Config :=
  { w := 64, config_debug := true, assert_diag := fun t => "Failed assertion: " ++ t,
    opt_abort := false, android := false, buferror := fun e => toString e }

/-- A placement rule: a request without hint lands at 0x2000, a request with a
hint lands one page above the hint. -/
def placeAbove : (Nat → Bool) → Nat → Nat → Nat :=
  fun _ hint _ => if hint = 0 then 8192 else hint + 4096

/-- An empty address space with empty logs. -/
def emptyWorld : World AddrSpace :=
  { os := { mapped := fun _ => false, errno := 0 }, trace := [], out := [] }

/-- An address space in which exactly the three pages `[0x1000, 0x4000)` are
mapped. -/
def threePages : World AddrSpace :=
  { os := { mapped := fun a => inRange a 4096 (3 * 4096), errno := 0 }, trace := [], out := [] }

/-- The static variables before `pages_boot` (zero-initialised). -/
def st_init : PagesState := { mmap_flags := 0, os_overcommits := false }

/-- An operating system whose `munmap` always fails with EINVAL and whose
`mmap` answers with the address one page above the hint. -/
def failingOS : OS Unit where
  mmap _ addr _ _ _ _ _ := (addr + 4096, ())
  munmap _ _ _ := (-1, ())
  madvise _ _ _ _ := (-1, ())
  prctl _ _ _ _ _ _ := (0, ())
  virtualAlloc _ addr _ _ _ := (addr, ())
  get_errno _ := EINVAL

/-- An operating system without state whose calls all succeed; `mmap` answers
with the address one page above the hint. -/
def okOS : OS Unit where
  mmap _ addr _ _ _ _ _ := (addr + 4096, ())
  munmap _ _ _ := (0, ())
  madvise _ _ _ _ := (0, ())
  prctl _ _ _ _ _ _ := (0, ())
  virtualAlloc _ addr _ _ _ := (addr, ())
  get_errno _ := 0

/-- A world over a stateless OS, with empty logs. -/
def unitWorld : World Unit := { os := (), trace := [], out := [] }

/-- The build that purges with `madvise(MADV_DONTNEED)`. -/
def buildDontneed : PurgeBuild :=
  { win32 := false, have_madvise := true, purge_madvise_dontneed := true,
    purge_madvise_free := false }

/-- A build of `pages_purge` gets past the preprocessor: it does not reach the
`#error` of line 202. -/
def purge_compiles (b : PurgeBuild) : Bool :=
  b.win32 || !b.have_madvise || b.purge_madvise_dontneed || b.purge_madvise_free

/-- The system calls issued between world `s0` and a later world `s1`. -/
def newCalls {σ : Type} (s0 s1 : World σ) : List SysCall :=
  s1.trace.drop s0.trace.length

/-- Recognises a reservation request. -/
def isMmap : SysCall → Bool
  | SysCall.mmap _ _ _ _ _ _ => true
  | _ => false

/-- Recognises a release request. -/
def isMunmap : SysCall → Bool
  | SysCall.munmap _ _ => true
  | _ => false

/-! ## Basic facts -/

theorem bind_ret {σ α β : Type} (a : α) (s : World σ) (f : α → World σ → Outcome σ β) :
    (Outcome.ret a s).bind f = f a s := rfl

theorem bind_aborted {σ α β : Type} (s : World σ) (f : α → World σ → Outcome σ β) :
    (Outcome.aborted s : Outcome σ α).bind f = Outcome.aborted s := rfl

theorem jassert_true {σ : Type} (cfg : Config) (text : String) (s : World σ) :
    jassert cfg true text s = Outcome.ret () s := by
  simp [jassert]

theorem jassert_of {σ : Type} (cfg : Config) (e : Bool) (text : String) (s : World σ)
    (h : e = true) : jassert cfg e text s = Outcome.ret () s := by
  subst h; exact jassert_true cfg text s

theorem newCalls_append {σ : Type} (s0 s1 : World σ) (l : List SysCall)
    (h : s1.trace = s0.trace ++ l) : newCalls s0 s1 = l := by
  simp [newCalls, h]

theorem boot_flags (st : PagesState) :
    (pages_boot st).mmap_flags = MAP_PRIVATE ||| MAP_ANON ||| MAP_NORESERVE := rfl

theorem boot_flags_not_fixed (st : PagesState) :
    (pages_boot st).mmap_flags &&& MAP_FIXED = 0 := by
  rw [boot_flags]; decide

/-! ## Commit and decommit (C1) -/

/-- C1, as stated, fails: in an empty 64-bit world, for the page at 0x1000,
neither `pages_commit` nor `pages_decommit` returns `false` (the value that
means the operation did not fail). -/
theorem pages_commit_not_false :
    (pages_commit emptyWorld 4096 4096).value ≠ some false ∧
    (pages_decommit emptyWorld 4096 4096).value ≠ some false := by
  constructor <;> simp [pages_commit, pages_decommit, pages_commit_impl, Outcome.value]

/-- C1, amended: with `JEMALLOC_ENABLE_OVERCOMMIT` defined, for every address
and size, in every world, `pages_commit` and `pages_decommit` return `true`, the
value of the failure indicator that means the operation failed, and they leave
the world as it was: no system call, no output, whatever the address and size. -/
theorem pages_commit_decommit_true {σ : Type} (s : World σ) (addr size : Nat) :
    pages_commit s addr size = Outcome.ret true s ∧
    pages_decommit s addr size = Outcome.ret true s ∧
    (∀ addr2 size2 : Nat, pages_commit s addr2 size2 = pages_commit s addr size ∧
      pages_decommit s addr2 size2 = pages_decommit s addr size) := by
  refine ⟨rfl, rfl, fun _ _ => ⟨rfl, rfl⟩⟩

/-! ## Bootstrap (C7) -/

/-- C7: `pages_boot` is idempotent on the static variables.  From every
starting state, booting twice gives the state of booting once, and so does
booting any number `n ≥ 1` of times; this covers both `mmap_flags` and
`os_overcommits`. -/
theorem pages_boot_idempotent (st : PagesState) :
    pages_boot (pages_boot st) = pages_boot st ∧
    (∀ n : Nat, 1 ≤ n → pages_boot_n n st = pages_boot st) ∧
    (∀ n : Nat, 1 ≤ n → (pages_boot_n n st).mmap_flags = (pages_boot st).mmap_flags ∧
      (pages_boot_n n st).os_overcommits = (pages_boot st).os_overcommits) := by
  have h1 : ∀ t : PagesState, pages_boot (pages_boot t) = pages_boot t := fun _ => rfl
  have h2 : ∀ n : Nat, 1 ≤ n → pages_boot_n n st = pages_boot st := by
    intro n hn
    induction n with
    | zero => omega
    | succ k ih =>
      cases k with
      | zero => rfl
      | succ j =>
        have := ih (by omega)
        show pages_boot (pages_boot_n (j + 1) st) = pages_boot st
        rw [this]; exact h1 st
  exact ⟨h1 st, h2, fun n hn => by rw [h2 n hn]; exact ⟨rfl, rfl⟩⟩

/-- C7 at a concrete state: three boots from a state with stray flag bits and
the overcommit flag set. -/
theorem pages_boot_idempotent_witness :
    (1 ≤ 3) ∧
    pages_boot_n 3 { mmap_flags := 0x10, os_overcommits := true } =
      pages_boot { mmap_flags := 0x10, os_overcommits := true } :=
  ⟨by decide,
   (pages_boot_idempotent { mmap_flags := 0x10, os_overcommits := true }).2.1 3 (by decide)⟩

/-! ## Purge (C5) -/

/-- C5: in every build that compiles, `pages_purge` returns, and its result is
`false` exactly when the build purges with `madvise(MADV_DONTNEED)` (no
`_WIN32`, `JEMALLOC_HAVE_MADVISE` and `JEMALLOC_PURGE_MADVISE_DONTNEED`) and
that call returned 0.  In every other case the result is `true`: on `_WIN32`
(MEM_RESET), with `MADV_FREE`, without any purge primitive, and when the
`MADV_DONTNEED` call returns an error. -/
theorem pages_purge_unzeroed {σ : Type} (b : PurgeBuild) (os : OS σ) (s : World σ)
    (addr size : Nat) (hb : purge_compiles b = true) :
    ∃ (u : Bool) (s1 : World σ), pages_purge b os s addr size = some (Outcome.ret u s1) ∧
      (u = false ↔ (b.win32 = false ∧ b.have_madvise = true ∧
          b.purge_madvise_dontneed = true ∧
          (os.madvise s.os addr size MADV_DONTNEED).1 = 0)) ∧
      (b.win32 = true → u = true) ∧
      (b.win32 = false → b.have_madvise = false → u = true ∧ s1 = s) ∧
      (b.win32 = false → b.have_madvise = true → b.purge_madvise_dontneed = false → u = true) ∧
      (b.win32 = false → b.have_madvise = true → b.purge_madvise_dontneed = true →
        (os.madvise s.os addr size MADV_DONTNEED).1 ≠ 0 → u = true) := by
  obtain ⟨w32, hm, dn, fr⟩ := b
  cases w32 <;> cases hm <;> cases dn <;> cases fr <;>
    simp [purge_compiles] at hb <;>
    simp [pages_purge, sys_madvise, sys_virtualAlloc]

/-- C5 at a concrete input: the `MADV_DONTNEED` build on the address-space
model, whose `madvise` succeeds, returns `false`. -/
theorem pages_purge_unzeroed_witness :
    purge_compiles buildDontneed = true ∧
    ∃ (u : Bool) (s1 : World AddrSpace),
      pages_purge buildDontneed (exactOS 64 placeAbove) emptyWorld 4096 4096 =
        some (Outcome.ret u s1) ∧ u = false :=
  ⟨by decide,
   by
    obtain ⟨u, s1, h1, h2, _⟩ :=
      pages_purge_unzeroed buildDontneed (exactOS 64 placeAbove) emptyWorld 4096 4096
        (by decide)
    exact ⟨u, s1, h1, h2.mpr ⟨rfl, rfl, rfl, rfl⟩⟩⟩

/-! ## Release (C9) -/

/-- C9: `pages_unmap(addr, size)` issues exactly one system call,
`munmap(addr, size)`, with the address and size as given.  If that call does
not return -1, nothing is printed and the function returns.  If it returns -1,
one line, the munmap error text with the `buferror` rendering of errno, is
printed, and the process is aborted if and only if `opt_abort` is set;
otherwise the function returns after printing. -/
theorem pages_unmap_spec {σ : Type} (cfg : Config) (os : OS σ) (s : World σ)
    (addr size : Nat) :
    (pages_unmap cfg os s addr size).world.trace = s.trace ++ [SysCall.munmap addr size] ∧
    (pages_unmap cfg os s addr size).world.os = (os.munmap s.os addr size).2 ∧
    ((os.munmap s.os addr size).1 ≠ -1 →
      pages_unmap cfg os s addr size =
        Outcome.ret ()
          { os := (os.munmap s.os addr size).2,
            trace := s.trace ++ [SysCall.munmap addr size], out := s.out }) ∧
    ((os.munmap s.os addr size).1 = -1 →
      (pages_unmap cfg os s addr size).world.out =
        s.out ++ ["<jemalloc>: Error in munmap(): " ++
          cfg.buferror (os.get_errno (os.munmap s.os addr size).2) ++ "\n"] ∧
      ((pages_unmap cfg os s addr size).returned = false ↔ cfg.opt_abort = true) ∧
      (cfg.opt_abort = false → (pages_unmap cfg os s addr size).value = some ())) := by
  by_cases h : (os.munmap s.os addr size).1 = -1
  · cases ha : cfg.opt_abort <;>
      simp [pages_unmap, sys_munmap, h, ha, Outcome.world, Outcome.returned, Outcome.value]
  · simp [pages_unmap, sys_munmap, h, Outcome.world, Outcome.returned, Outcome.value]

/-- C9 at concrete inputs: on an OS whose `munmap` fails, with `opt_abort` set,
the error line is printed and the run is aborted. -/
theorem pages_unmap_spec_witness :
    (failingOS.munmap unitWorld.os 4096 4096).1 = -1 ∧
    (pages_unmap cfg64 failingOS unitWorld 4096 4096).world.out =
      ["<jemalloc>: Error in munmap(): " ++ cfg64.buferror EINVAL ++ "\n"] ∧
    (pages_unmap cfg64 failingOS unitWorld 4096 4096).returned = false :=
  ⟨rfl,
   ((pages_unmap_spec cfg64 failingOS unitWorld 4096 4096).2.2.2 rfl).1,
   ((pages_unmap_spec cfg64 failingOS unitWorld 4096 4096).2.2.2 rfl).2.1.mpr rfl⟩

/-! ## Case analysis of `pages_map` -/

theorem map_failed_ne_null (w : Nat) (hw : 0 < w) : MAP_FAILED w ≠ NULL := by
  have : 2 ≤ 2 ^ w := by
    calc 2 = 2 ^ 1 := rfl
      _ ≤ 2 ^ w := Nat.pow_le_pow_right (by decide) hw
  simp only [MAP_FAILED, NULL]; omega

/-- The size assertion fails in a debug build: abort before any system call. -/
theorem pages_map_size_zero {σ : Type} (cfg : Config) (os : OS σ) (st : PagesState)
    (s : World σ) (addr : Nat) (commit : Bool) (hd : cfg.config_debug = true) :
    pages_map cfg os st s addr 0 commit =
      Outcome.aborted { s with out := s.out ++ [cfg.assert_diag "size != 0"] } := by
  simp [pages_map, jassert, hd, bind_aborted]

/-- The OS answers NULL in a debug build: abort right after the request. -/
theorem pages_map_null {σ : Type} (cfg : Config) (os : OS σ) (st : PagesState)
    (s : World σ) (addr size : Nat) (commit : Bool) (o : σ) (hsz : size ≠ 0)
    (hm : os.mmap s.os addr size PAGES_PROT_COMMIT st.mmap_flags (-1) 0 = (NULL, o))
    (hd : cfg.config_debug = true) :
    pages_map cfg os st s addr size commit =
      Outcome.aborted
        { os := o,
          trace := s.trace ++ [SysCall.mmap addr size PAGES_PROT_COMMIT st.mmap_flags (-1) 0],
          out := s.out ++ [cfg.assert_diag "ret != NULL"] } := by
  simp [pages_map, jassert, hd, hsz, sys_mmap, hm, bind_ret, bind_aborted]

/-- The OS refuses the mapping: NULL is returned and nothing else is done. -/
theorem pages_map_failed {σ : Type} (cfg : Config) (os : OS σ) (st : PagesState)
    (s : World σ) (addr size : Nat) (commit : Bool) (r : Nat) (o : σ)
    (hsz : cfg.config_debug = true → size ≠ 0)
    (hm : os.mmap s.os addr size PAGES_PROT_COMMIT st.mmap_flags (-1) 0 = (r, o))
    (hr : r = MAP_FAILED cfg.w) (hn : cfg.config_debug = true → r ≠ NULL) :
    pages_map cfg os st s addr size commit =
      Outcome.ret (NULL, true)
        { os := o,
          trace := s.trace ++ [SysCall.mmap addr size PAGES_PROT_COMMIT st.mmap_flags (-1) 0],
          out := s.out } := by
  simp only [NULL] at hn
  cases hdbg : cfg.config_debug
  · simp [pages_map, jassert, hdbg, sys_mmap, hm, ← hr, Outcome.bind, NULL]
  · have h1 := hsz hdbg
    have h2 := hn hdbg
    simp [pages_map, jassert, h1, sys_mmap, hm, h2, ← hr, Outcome.bind, NULL]

/-- The OS maps where asked, or anywhere when no hint was given: the address
is returned, after the Android naming call when compiled in. -/
theorem pages_map_placed {σ : Type} (cfg : Config) (os : OS σ) (st : PagesState)
    (s : World σ) (addr size : Nat) (commit : Bool) (r : Nat) (o : σ)
    (hsz : cfg.config_debug = true → size ≠ 0)
    (hm : os.mmap s.os addr size PAGES_PROT_COMMIT st.mmap_flags (-1) 0 = (r, o))
    (hf : r ≠ MAP_FAILED cfg.w) (hn : cfg.config_debug = true → r ≠ NULL)
    (ha : addr = NULL ∨ r = addr) :
    pages_map cfg os st s addr size commit =
      Outcome.ret (r, true)
        (if cfg.android && r != NULL then
          (sys_prctl os
            { os := o,
              trace := s.trace ++
                [SysCall.mmap addr size PAGES_PROT_COMMIT st.mmap_flags (-1) 0],
              out := s.out }
            ANDROID_PR_SET_VMA ANDROID_PR_SET_VMA_ANON_NAME r size "libc_malloc").2
         else
          { os := o,
            trace := s.trace ++ [SysCall.mmap addr size PAGES_PROT_COMMIT st.mmap_flags (-1) 0],
            out := s.out }) := by
  simp only [NULL] at hn ha
  cases hdbg : cfg.config_debug
  · rcases ha with ha | ha
    · subst ha
      by_cases hr0 : r = 0
      · subst hr0
        cases hand : cfg.android <;>
          simp [pages_map, jassert, hdbg, sys_mmap, hm, hf, Outcome.bind, NULL, hand]
      · cases hand : cfg.android <;>
          simp [pages_map, jassert, hdbg, sys_mmap, hm, hf, hr0, Outcome.bind, NULL, hand]
    · subst ha
      by_cases hr0 : r = 0
      · subst hr0
        cases hand : cfg.android <;>
          simp [pages_map, jassert, hdbg, sys_mmap, hm, hf, Outcome.bind, NULL, hand]
      · cases hand : cfg.android <;>
          simp [pages_map, jassert, hdbg, sys_mmap, hm, hf, hr0, Outcome.bind, NULL, hand]
  · have h1 := hsz hdbg
    have h2 := hn hdbg
    rcases ha with ha | ha
    · subst ha
      cases hand : cfg.android <;>
        simp [pages_map, jassert, h1, sys_mmap, hm, hf, h2, Outcome.bind, NULL, hand]
    · subst ha
      cases hand : cfg.android <;>
        simp [pages_map, jassert, h1, sys_mmap, hm, hf, h2, Outcome.bind, NULL, hand]

/-- The OS maps somewhere else than the hint: the stray mapping is handed to
`pages_unmap` and NULL is returned once that returns. -/
theorem pages_map_stray {σ : Type} (cfg : Config) (os : OS σ) (st : PagesState)
    (s : World σ) (addr size : Nat) (commit : Bool) (r : Nat) (o : σ)
    (hsz : cfg.config_debug = true → size ≠ 0)
    (hm : os.mmap s.os addr size PAGES_PROT_COMMIT st.mmap_flags (-1) 0 = (r, o))
    (hf : r ≠ MAP_FAILED cfg.w) (hn : cfg.config_debug = true → r ≠ NULL)
    (ha : addr ≠ NULL) (hd : r ≠ addr) :
    pages_map cfg os st s addr size commit =
      (pages_unmap cfg os
        { os := o,
          trace := s.trace ++ [SysCall.mmap addr size PAGES_PROT_COMMIT st.mmap_flags (-1) 0],
          out := s.out } r size).bind
        fun _ s3 => Outcome.ret (NULL, true) s3 := by
  simp only [NULL] at hn ha
  have key : ∀ m : Outcome σ Unit,
      ((m.bind fun _ s3 => Outcome.ret NULL s3).bind fun ret s4 =>
        (if cfg.android && ret != NULL then
          Outcome.ret ()
            (sys_prctl os s4 ANDROID_PR_SET_VMA ANDROID_PR_SET_VMA_ANON_NAME ret size
              "libc_malloc").2
         else Outcome.ret () s4).bind fun _ s5 =>
        (jassert cfg
          (ret == NULL || (addr == NULL && ret != addr) || (addr != NULL && ret == addr))
          "ret == NULL || (addr == NULL && ret != addr) || (addr != NULL && ret == addr)"
          s5).bind fun _ s6 => Outcome.ret (ret, true) s6) =
      m.bind fun _ s3 => Outcome.ret (NULL, true) s3 := by
    intro m
    cases m with
    | ret a s3 => simp [bind_ret, jassert, NULL]
    | aborted s3 => simp [bind_aborted]
  rw [← key]
  cases hdbg : cfg.config_debug
  · simp [pages_map, jassert, hdbg, sys_mmap, hm, hf, ha, hd, NULL, bind_ret]
  · have h1 := hsz hdbg
    have h2 := hn hdbg
    simp [pages_map, jassert, h1, sys_mmap, hm, hf, h2, ha, hd, NULL, bind_ret]

/-! ## Facts about `pages_unmap` used by its callers -/

theorem pages_unmap_trace {σ : Type} (cfg : Config) (os : OS σ) (s : World σ)
    (addr size : Nat) :
    (pages_unmap cfg os s addr size).world.trace = s.trace ++ [SysCall.munmap addr size] := by
  by_cases h : (os.munmap s.os addr size).1 = -1
  · cases ha : cfg.opt_abort <;> simp [pages_unmap, sys_munmap, h, ha, Outcome.world]
  · simp [pages_unmap, sys_munmap, h, Outcome.world]

theorem pages_unmap_ok {σ : Type} (cfg : Config) (os : OS σ) (s : World σ)
    (addr size : Nat) (h : (os.munmap s.os addr size).1 ≠ -1) :
    pages_unmap cfg os s addr size =
      Outcome.ret ()
        { os := (os.munmap s.os addr size).2,
          trace := s.trace ++ [SysCall.munmap addr size], out := s.out } := by
  simp [pages_unmap, sys_munmap, h]

theorem pages_unmap_no_abort {σ : Type} (cfg : Config) (os : OS σ) (s : World σ)
    (addr size : Nat) (h : cfg.opt_abort = false) :
    (pages_unmap cfg os s addr size).returned = true := by
  by_cases hm : (os.munmap s.os addr size).1 = -1
  · simp [pages_unmap, sys_munmap, hm, h, Outcome.returned]
  · simp [pages_unmap, sys_munmap, hm, Outcome.returned]

theorem bind_const_world {σ α β : Type} (m : Outcome σ α) (b : β) :
    (m.bind fun _ s3 => Outcome.ret b s3).world = m.world := by
  cases m <;> rfl

theorem bind_const_value {σ α β : Type} (m : Outcome σ α) (b : β) (h : m.returned = true) :
    (m.bind fun _ s3 => Outcome.ret b s3).value = some b := by
  cases m with
  | ret a s => rfl
  | aborted s => simp [Outcome.returned] at h

theorem bind_const_value_mem {σ α β : Type} (m : Outcome σ α) (b x : β) (s1 : World σ)
    (h : (m.bind fun _ s3 => Outcome.ret b s3) = Outcome.ret x s1) : x = b := by
  cases m with
  | ret a s => simp [bind_ret] at h; exact h.1.symm
  | aborted s => simp [bind_aborted] at h

/-- The reservation requests among the calls of one `pages_map`. -/
theorem pages_map_requests {σ : Type} (cfg : Config) (os : OS σ) (st : PagesState)
    (s : World σ) (addr size : Nat) (commit : Bool) :
    (newCalls s (pages_map cfg os st s addr size commit).world).filter isMmap =
      if cfg.config_debug && size == 0 then []
      else [SysCall.mmap addr size PAGES_PROT_COMMIT st.mmap_flags (-1) 0] := by
  by_cases hz : cfg.config_debug = true ∧ size = 0
  · obtain ⟨hd, h0⟩ := hz
    subst h0
    rw [pages_map_size_zero cfg os st s addr commit hd]
    simp [hd, newCalls, Outcome.world]
  · have hsz : cfg.config_debug = true → size ≠ 0 := fun h h0 => hz ⟨h, h0⟩
    have hif : (cfg.config_debug && size == 0) = false := by
      cases hdbg : cfg.config_debug
      · simp
      · simp [hsz hdbg]
    rw [hif]
    rcases hm : os.mmap s.os addr size PAGES_PROT_COMMIT st.mmap_flags (-1) 0 with ⟨r, o⟩
    by_cases hnull : cfg.config_debug = true ∧ r = NULL
    · obtain ⟨hd, h0⟩ := hnull
      subst h0
      rw [pages_map_null cfg os st s addr size commit o (hsz hd) hm hd]
      rw [newCalls_append s _ [SysCall.mmap addr size PAGES_PROT_COMMIT st.mmap_flags (-1) 0]
        rfl]
      simp [isMmap]
    · have hn : cfg.config_debug = true → r ≠ NULL := fun h h0 => hnull ⟨h, h0⟩
      by_cases hf : r = MAP_FAILED cfg.w
      · rw [pages_map_failed cfg os st s addr size commit r o hsz hm hf hn]
        rw [newCalls_append s _
          [SysCall.mmap addr size PAGES_PROT_COMMIT st.mmap_flags (-1) 0] rfl]
        simp [isMmap]
      · by_cases ha : addr = NULL ∨ r = addr
        · rw [pages_map_placed cfg os st s addr size commit r o hsz hm hf hn ha]
          by_cases hand : (cfg.android && r != NULL) = true
          · rw [if_pos hand]
            rw [newCalls_append s _
              [SysCall.mmap addr size PAGES_PROT_COMMIT st.mmap_flags (-1) 0,
               SysCall.prctl ANDROID_PR_SET_VMA ANDROID_PR_SET_VMA_ANON_NAME r size
                 "libc_malloc"] (by simp [Outcome.world, sys_prctl])]
            simp [isMmap]
          · rw [if_neg hand]
            rw [newCalls_append s _
              [SysCall.mmap addr size PAGES_PROT_COMMIT st.mmap_flags (-1) 0] rfl]
            simp [isMmap]
        · have ha1 : addr ≠ NULL := fun h => ha (Or.inl h)
          have ha2 : r ≠ addr := fun h => ha (Or.inr h)
          rw [pages_map_stray cfg os st s addr size commit r o hsz hm hf hn ha1 ha2]
          rw [newCalls_append s _
            [SysCall.mmap addr size PAGES_PROT_COMMIT st.mmap_flags (-1) 0,
             SysCall.munmap r size]
            (by rw [bind_const_world, pages_unmap_trace]; simp)]
          simp [isMmap]

/-- Whenever `pages_map` returns, the commit flag it reports is `true`. -/
theorem pages_map_flag {σ : Type} (cfg : Config) (os : OS σ) (st : PagesState)
    (s : World σ) (addr size : Nat) (commit : Bool) (v : Nat) (c : Bool) (s1 : World σ)
    (h : pages_map cfg os st s addr size commit = Outcome.ret (v, c) s1) : c = true := by
  by_cases hz : cfg.config_debug = true ∧ size = 0
  · obtain ⟨hd, h0⟩ := hz
    subst h0
    rw [pages_map_size_zero cfg os st s addr commit hd] at h
    cases h
  · have hsz : cfg.config_debug = true → size ≠ 0 := fun h h0 => hz ⟨h, h0⟩
    rcases hm : os.mmap s.os addr size PAGES_PROT_COMMIT st.mmap_flags (-1) 0 with ⟨r, o⟩
    by_cases hnull : cfg.config_debug = true ∧ r = NULL
    · obtain ⟨hd, h0⟩ := hnull
      subst h0
      rw [pages_map_null cfg os st s addr size commit o (hsz hd) hm hd] at h
      cases h
    · have hn : cfg.config_debug = true → r ≠ NULL := fun h h0 => hnull ⟨h, h0⟩
      by_cases hf : r = MAP_FAILED cfg.w
      · rw [pages_map_failed cfg os st s addr size commit r o hsz hm hf hn] at h
        cases h; rfl
      · by_cases ha : addr = NULL ∨ r = addr
        · rw [pages_map_placed cfg os st s addr size commit r o hsz hm hf hn ha] at h
          cases h; rfl
        · have ha1 : addr ≠ NULL := fun h => ha (Or.inl h)
          have ha2 : r ≠ addr := fun h => ha (Or.inr h)
          rw [pages_map_stray cfg os st s addr size commit r o hsz hm hf hn ha1 ha2] at h
          have := bind_const_value_mem _ _ _ _ h
          exact (Prod.mk.inj this).2

/-! ## Reserve: commit flag and protection (C2) -/

/-- C2: for every hint `addr` (NULL or not), every size greater than 0, every
initial commit flag and every answer `r` of the OS to the mapping request:
the only reservation request of the call asks for `PROT_READ | PROT_WRITE`
(the committed protection, which differs from `PROT_NONE`); whenever
`pages_map` returns, the commit flag it reports is `true`; and it does return,
with the flag `true`, when the OS fails (NULL is returned), when the OS maps at
the hint or without hint (`r` is returned), and when the OS maps elsewhere and
`pages_unmap` returns (NULL is returned). -/
theorem pages_map_commit_flag {σ : Type} (cfg : Config) (os : OS σ) (st : PagesState)
    (s : World σ) (addr size : Nat) (commit : Bool) (r : Nat) (o : σ) (hsz : 0 < size)
    (hm : os.mmap s.os addr size PAGES_PROT_COMMIT st.mmap_flags (-1) 0 = (r, o)) :
    (newCalls s (pages_map cfg os st s addr size commit).world).filter isMmap =
      [SysCall.mmap addr size (PROT_READ ||| PROT_WRITE) st.mmap_flags (-1) 0] ∧
    (PROT_READ ||| PROT_WRITE) ≠ PROT_NONE ∧
    (∀ (v : Nat) (c : Bool) (s1 : World σ),
      pages_map cfg os st s addr size commit = Outcome.ret (v, c) s1 → c = true) ∧
    (r = MAP_FAILED cfg.w → r ≠ NULL →
      (pages_map cfg os st s addr size commit).value = some (NULL, true)) ∧
    (r ≠ MAP_FAILED cfg.w → r ≠ NULL → (addr = NULL ∨ r = addr) →
      (pages_map cfg os st s addr size commit).value = some (r, true)) ∧
    (r ≠ MAP_FAILED cfg.w → r ≠ NULL → addr ≠ NULL → r ≠ addr →
      ((os.munmap o r size).1 ≠ -1 ∨ cfg.opt_abort = false) →
      (pages_map cfg os st s addr size commit).value = some (NULL, true)) := by
  have hsz0 : size ≠ 0 := by omega
  have hsz1 : cfg.config_debug = true → size ≠ 0 := fun _ => hsz0
  refine ⟨?_, by decide, ?_, ?_, ?_, ?_⟩
  · rw [pages_map_requests]
    have : (cfg.config_debug && size == 0) = false := by simp [hsz0]
    rw [this]; rfl
  · intro v c s1 h
    exact pages_map_flag cfg os st s addr size commit v c s1 h
  · intro hf hn
    rw [pages_map_failed cfg os st s addr size commit r o hsz1 hm hf (fun _ => hn)]
    rfl
  · intro hf hn ha
    rw [pages_map_placed cfg os st s addr size commit r o hsz1 hm hf (fun _ => hn) ha]
    rfl
  · intro hf hn ha hd hu
    rw [pages_map_stray cfg os st s addr size commit r o hsz1 hm hf (fun _ => hn) ha hd]
    apply bind_const_value
    rcases hu with hu | hu
    · rw [pages_unmap_ok cfg os _ r size hu]; rfl
    · exact pages_unmap_no_abort cfg os _ r size hu

/-- C2 at a concrete input: a hinted one-page request with `commit = false` on
an OS that maps one page above the hint and whose `munmap` succeeds; NULL comes
back and the reported flag is `true`. -/
theorem pages_map_commit_flag_witness :
    (0 < 4096) ∧
    (okOS.mmap unitWorld.os 4096 4096 PAGES_PROT_COMMIT st_init.mmap_flags (-1) 0 =
      (8192, ())) ∧
    (newCalls unitWorld (pages_map cfg64 okOS st_init unitWorld 4096 4096 false).world).filter
        isMmap =
      [SysCall.mmap 4096 4096 (PROT_READ ||| PROT_WRITE) st_init.mmap_flags (-1) 0] ∧
    (pages_map cfg64 okOS st_init unitWorld 4096 4096 false).value = some (NULL, true) :=
  ⟨by decide, rfl,
   (pages_map_commit_flag cfg64 okOS st_init unitWorld 4096 4096 false 8192 ()
      (by decide) rfl).1,
   (pages_map_commit_flag cfg64 okOS st_init unitWorld 4096 4096 false 8192 ()
      (by decide) rfl).2.2.2.2.2 (by decide) (by decide) (by decide) (by decide)
      (Or.inl (by decide))⟩

/-! ## Facts about the address-space model -/

theorem inRange_iff (a base len : Nat) : inRange a base len = true ↔ base ≤ a ∧ a < base + len := by
  simp [inRange]

/-- A successful mapping without `MAP_FIXED` is at a non-null free range, and
adds exactly that range. -/
theorem exact_mmap_success (w : Nat) (place : (Nat → Bool) → Nat → Nat → Nat) (s : AddrSpace)
    (addr len prot flags : Nat) (fd : Int) (off r : Nat) (o : AddrSpace)
    (hfl : flags &&& MAP_FIXED = 0)
    (hm : (exactOS w place).mmap s addr len prot flags fd off = (r, o))
    (hf : r ≠ MAP_FAILED w) :
    r ≠ NULL ∧ 0 < len ∧ r + len ≤ 2 ^ w ∧
    (∀ a, r ≤ a → a < r + len → s.mapped a = false) ∧
    o = { s with mapped := fun a => s.mapped a || inRange a r len } := by
  simp only [exactOS, hfl, ne_eq, not_true_eq_false, if_false] at hm
  split at hm
  · rename_i hc
    obtain ⟨_, h2, h3, h4, h5⟩ := hc
    have hr : place s.mapped addr len = r := (Prod.mk.inj hm).1
    have ho := (Prod.mk.inj hm).2
    rw [hr] at h2 h4 h5 ho
    refine ⟨h2, h3, h4, ?_, ho.symm⟩
    intro a ha1 ha2
    have h5' : ∀ i, i < len → s.mapped (r + i) = false := by
      simpa [rangeFree] using h5
    have := h5' (a - r) (by omega)
    rwa [show r + (a - r) = a by omega] at this
  · exact absurd (Prod.mk.inj hm).1.symm hf

/-- When the placement decision is a non-null free range inside the address
space, a request without `MAP_FIXED` is granted there. -/
theorem exact_mmap_at (w : Nat) (place : (Nat → Bool) → Nat → Nat → Nat) (s : AddrSpace)
    (addr len prot flags : Nat) (fd : Int) (off : Nat)
    (hfl : flags &&& MAP_FIXED = 0)
    (h1 : place s.mapped addr len ≠ MAP_FAILED w) (h2 : place s.mapped addr len ≠ NULL)
    (h3 : 0 < len) (h4 : place s.mapped addr len + len ≤ 2 ^ w)
    (h5 : ∀ i, i < len → s.mapped (place s.mapped addr len + i) = false) :
    (exactOS w place).mmap s addr len prot flags fd off =
      (place s.mapped addr len,
        { s with mapped := fun a => s.mapped a || inRange a (place s.mapped addr len) len }) := by
  have h5' : rangeFree s.mapped (place s.mapped addr len) len = true := by
    simpa [rangeFree] using h5
  simp only [exactOS, hfl, ne_eq, not_true_eq_false, if_false]
  rw [if_pos ⟨h1, h2, h3, h4, h5'⟩]

theorem exact_munmap (w : Nat) (place : (Nat → Bool) → Nat → Nat → Nat) (s : AddrSpace)
    (addr len : Nat) (h : len ≠ 0) :
    (exactOS w place).munmap s addr len =
      (0, { s with mapped := fun a => s.mapped a && !inRange a addr len }) := by
  simp [exactOS, h]

/-- Mapping a free range and unmapping it again gives back the address space. -/
theorem map_unmap_mapped (m : Nat → Bool) (r len : Nat)
    (hfree : ∀ a, r ≤ a → a < r + len → m a = false) :
    (fun a => (m a || inRange a r len) && !inRange a r len) = m := by
  funext a
  by_cases h : inRange a r len = true
  · have := (inRange_iff a r len).mp h
    simp [h, hfree a this.1 this.2]
  · simp [h]

/-! ## Reserve: flags of the request (C8) -/

/-- C8: after `pages_boot` (from any earlier state), for every hint, size and
commit input, every reservation request `pages_map` sends carries the flags
`MAP_PRIVATE | MAP_ANON | MAP_NORESERVE`: each of the three bits is set, the
value is exactly their union, and `MAP_FIXED` is not in it.  A call sends at
most one such request, and exactly one when the size is not 0 (a zero size is
stopped by the assertion in a debug build).  In the address-space model such a
request, when granted, lands on a range that was free and keeps every earlier
mapping. -/
theorem pages_map_request_flags {σ : Type} (cfg : Config) (os : OS σ) (st0 : PagesState)
    (s : World σ) (addr size : Nat) (commit : Bool) :
    (∀ c ∈ newCalls s (pages_map cfg os (pages_boot st0) s addr size commit).world,
      isMmap c = true →
      c = SysCall.mmap addr size PAGES_PROT_COMMIT
            (MAP_PRIVATE ||| MAP_ANON ||| MAP_NORESERVE) (-1) 0) ∧
    ((newCalls s (pages_map cfg os (pages_boot st0) s addr size commit).world).filter
      isMmap).length ≤ 1 ∧
    (size ≠ 0 →
      (newCalls s (pages_map cfg os (pages_boot st0) s addr size commit).world).filter isMmap =
        [SysCall.mmap addr size PAGES_PROT_COMMIT
          (MAP_PRIVATE ||| MAP_ANON ||| MAP_NORESERVE) (-1) 0]) ∧
    (MAP_PRIVATE ||| MAP_ANON ||| MAP_NORESERVE) &&& MAP_FIXED = 0 ∧
    (MAP_PRIVATE ||| MAP_ANON ||| MAP_NORESERVE) &&& MAP_PRIVATE = MAP_PRIVATE ∧
    (MAP_PRIVATE ||| MAP_ANON ||| MAP_NORESERVE) &&& MAP_ANON = MAP_ANON ∧
    (MAP_PRIVATE ||| MAP_ANON ||| MAP_NORESERVE) &&& MAP_NORESERVE = MAP_NORESERVE ∧
    (∀ (place : (Nat → Bool) → Nat → Nat → Nat) (m : AddrSpace) (r : Nat) (o : AddrSpace),
      (exactOS cfg.w place).mmap m addr size PAGES_PROT_COMMIT
        (pages_boot st0).mmap_flags (-1) 0 = (r, o) →
      r ≠ MAP_FAILED cfg.w →
      (∀ a, r ≤ a → a < r + size → m.mapped a = false) ∧
      (∀ a, m.mapped a = true → o.mapped a = true)) := by
  have hreq := pages_map_requests cfg os (pages_boot st0) s addr size commit
  rw [boot_flags] at hreq
  refine ⟨?_, ?_, ?_, by decide, by decide, by decide, by decide, ?_⟩
  · intro c hc hmm
    have hmem : c ∈ (newCalls s
        (pages_map cfg os (pages_boot st0) s addr size commit).world).filter isMmap :=
      List.mem_filter.mpr ⟨hc, hmm⟩
    rw [hreq] at hmem
    by_cases hif : (cfg.config_debug && size == 0) = true
    · rw [if_pos hif] at hmem; simp at hmem
    · rw [if_neg hif] at hmem; simpa using hmem
  · rw [hreq]
    by_cases hif : (cfg.config_debug && size == 0) = true
    · rw [if_pos hif]; simp
    · rw [if_neg hif]; simp
  · intro hsz
    rw [hreq]
    have : (cfg.config_debug && size == 0) = false := by simp [hsz]
    rw [this]; rfl
  · intro place m r o hm hf
    obtain ⟨_, _, _, hfree, ho⟩ :=
      exact_mmap_success cfg.w place m addr size PAGES_PROT_COMMIT
        (pages_boot st0).mmap_flags (-1) 0 r o (boot_flags_not_fixed st0) hm hf
    refine ⟨hfree, ?_⟩
    intro a ha
    rw [ho]
    simp [ha]

/-- C8 at a concrete input: a one-page request without hint after boot. -/
theorem pages_map_request_flags_witness :
    (4096 ≠ 0) ∧
    (newCalls emptyWorld
        (pages_map cfg64 (exactOS 64 placeAbove) (pages_boot st_init) emptyWorld 0 4096
          true).world).filter isMmap =
      [SysCall.mmap 0 4096 PAGES_PROT_COMMIT (MAP_PRIVATE ||| MAP_ANON ||| MAP_NORESERVE)
        (-1) 0] :=
  ⟨by decide,
   (pages_map_request_flags cfg64 (exactOS 64 placeAbove) st_init emptyWorld 0 4096
      true).2.2.1 (by decide)⟩

/-! ## Reserve: placement mismatch (C4) -/

/-- C4: let the OS answer the mapping request of `pages_map` with a non-null
address `r` other than `MAP_FAILED`.
(1) If the hint `addr` is not NULL and `r` differs from it, the calls of
`pages_map` are exactly the mapping request followed by `munmap(r, size)`,
through `pages_unmap`; NULL is returned whenever `pages_unmap` returns, and the
only other outcome is the abort inside `pages_unmap` (release failed and
`opt_abort` set).
(2) In the address-space model, where the release succeeds, the call returns
NULL and the mapped set and the output are what they were before the call.
(3) If `addr` is NULL or `r` equals `addr`, no release is issued and `r` is
returned. -/
theorem pages_map_mismatch_released (cfg : Config) (addr size : Nat) (commit : Bool)
    (hsz : size ≠ 0) :
    (∀ (σ : Type) (os : OS σ) (st : PagesState) (s : World σ) (r : Nat) (o : σ),
      os.mmap s.os addr size PAGES_PROT_COMMIT st.mmap_flags (-1) 0 = (r, o) →
      r ≠ MAP_FAILED cfg.w → r ≠ NULL → addr ≠ NULL → r ≠ addr →
      newCalls s (pages_map cfg os st s addr size commit).world =
        [SysCall.mmap addr size PAGES_PROT_COMMIT st.mmap_flags (-1) 0,
         SysCall.munmap r size] ∧
      (pages_map cfg os st s addr size commit).world.os = (os.munmap o r size).2 ∧
      (((os.munmap o r size).1 ≠ -1 ∨ cfg.opt_abort = false) →
        (pages_map cfg os st s addr size commit).value = some (NULL, true)) ∧
      ((pages_map cfg os st s addr size commit).returned = false →
        (os.munmap o r size).1 = -1 ∧ cfg.opt_abort = true)) ∧
    (∀ (place : (Nat → Bool) → Nat → Nat → Nat) (st0 : PagesState) (s : World AddrSpace)
      (r : Nat) (o : AddrSpace),
      (exactOS cfg.w place).mmap s.os addr size PAGES_PROT_COMMIT
        (pages_boot st0).mmap_flags (-1) 0 = (r, o) →
      r ≠ MAP_FAILED cfg.w → addr ≠ NULL → r ≠ addr →
      ∃ s1 : World AddrSpace,
        pages_map cfg (exactOS cfg.w place) (pages_boot st0) s addr size commit =
          Outcome.ret (NULL, true) s1 ∧
        s1.os.mapped = s.os.mapped ∧ s1.out = s.out ∧
        newCalls s s1 =
          [SysCall.mmap addr size PAGES_PROT_COMMIT (pages_boot st0).mmap_flags (-1) 0,
           SysCall.munmap r size]) ∧
    (∀ (σ : Type) (os : OS σ) (st : PagesState) (s : World σ) (r : Nat) (o : σ),
      os.mmap s.os addr size PAGES_PROT_COMMIT st.mmap_flags (-1) 0 = (r, o) →
      r ≠ MAP_FAILED cfg.w → r ≠ NULL → (addr = NULL ∨ r = addr) →
      (pages_map cfg os st s addr size commit).value = some (r, true) ∧
      (newCalls s (pages_map cfg os st s addr size commit).world).filter isMunmap = []) := by
  have hsz1 : cfg.config_debug = true → size ≠ 0 := fun _ => hsz
  refine ⟨?_, ?_, ?_⟩
  · intro σ os st s r o hm hf hn ha hd
    rw [pages_map_stray cfg os st s addr size commit r o hsz1 hm hf (fun _ => hn) ha hd]
    refine ⟨?_, ?_, ?_, ?_⟩
    · apply newCalls_append
      rw [bind_const_world, pages_unmap_trace]; simp
    · rw [bind_const_world]
      by_cases hu : (os.munmap o r size).1 = -1
      · cases hab : cfg.opt_abort <;>
          simp [pages_unmap, sys_munmap, hu, hab, Outcome.world]
      · simp [pages_unmap, sys_munmap, hu, Outcome.world]
    · intro hu
      apply bind_const_value
      rcases hu with hu | hu
      · rw [pages_unmap_ok cfg os _ r size hu]; rfl
      · exact pages_unmap_no_abort cfg os _ r size hu
    · intro hret
      by_cases hu : (os.munmap o r size).1 = -1
      · refine ⟨hu, ?_⟩
        cases hab : cfg.opt_abort
        · simp [pages_unmap, sys_munmap, hu, hab, Outcome.returned, bind_ret] at hret
        · rfl
      · rw [pages_unmap_ok cfg os _ r size hu] at hret
        simp [bind_ret, Outcome.returned] at hret
  · intro place st0 s r o hm hf ha hd
    obtain ⟨hn, hlen, _, hfree, ho⟩ :=
      exact_mmap_success cfg.w place s.os addr size PAGES_PROT_COMMIT
        (pages_boot st0).mmap_flags (-1) 0 r o (boot_flags_not_fixed st0) hm hf
    rw [pages_map_stray cfg (exactOS cfg.w place) (pages_boot st0) s addr size commit r o hsz1
      hm hf (fun _ => hn) ha hd]
    have hu : ((exactOS cfg.w place).munmap o r size).1 ≠ -1 := by
      rw [exact_munmap cfg.w place o r size hsz]; simp
    rw [pages_unmap_ok cfg (exactOS cfg.w place) _ r size hu, bind_ret]
    refine ⟨_, rfl, ?_, rfl, ?_⟩
    · show ((exactOS cfg.w place).munmap o r size).2.mapped = s.os.mapped
      rw [exact_munmap cfg.w place o r size hsz, ho]
      exact map_unmap_mapped s.os.mapped r size hfree
    · apply newCalls_append; simp
  · intro σ os st s r o hm hf hn ha
    rw [pages_map_placed cfg os st s addr size commit r o hsz1 hm hf (fun _ => hn) ha]
    refine ⟨rfl, ?_⟩
    by_cases hand : (cfg.android && r != NULL) = true
    · rw [if_pos hand]
      rw [newCalls_append s _
        [SysCall.mmap addr size PAGES_PROT_COMMIT st.mmap_flags (-1) 0,
         SysCall.prctl ANDROID_PR_SET_VMA ANDROID_PR_SET_VMA_ANON_NAME r size
           "libc_malloc"] (by simp [Outcome.world, sys_prctl])]
      simp [isMunmap]
    · rw [if_neg hand]
      rw [newCalls_append s _
        [SysCall.mmap addr size PAGES_PROT_COMMIT st.mmap_flags (-1) 0] rfl]
      simp [isMunmap]

/-- C4 at a concrete input: in the empty address space the model answers the
hint 0x1000 with 0x2000; the stray page is released and NULL is returned. -/
theorem pages_map_mismatch_released_witness :
    ((4096 : Nat) ≠ 0) ∧
    ((exactOS cfg64.w placeAbove).mmap emptyWorld.os 4096 4096 PAGES_PROT_COMMIT
        (pages_boot st_init).mmap_flags (-1) 0 =
      (8192, { emptyWorld.os with
                mapped := fun a => emptyWorld.os.mapped a || inRange a 8192 4096 })) ∧
    ((8192 : Nat) ≠ MAP_FAILED cfg64.w) ∧ ((4096 : Nat) ≠ NULL) ∧ ((8192 : Nat) ≠ 4096) ∧
    ∃ s1 : World AddrSpace,
      pages_map cfg64 (exactOS cfg64.w placeAbove) (pages_boot st_init) emptyWorld 4096 4096
          false = Outcome.ret (NULL, true) s1 ∧
      s1.os.mapped = emptyWorld.os.mapped ∧ s1.out = emptyWorld.out ∧
      newCalls emptyWorld s1 =
        [SysCall.mmap 4096 4096 PAGES_PROT_COMMIT (pages_boot st_init).mmap_flags (-1) 0,
         SysCall.munmap 8192 4096] :=
  ⟨by decide,
   exact_mmap_at 64 placeAbove emptyWorld.os 4096 4096 PAGES_PROT_COMMIT
      (pages_boot st_init).mmap_flags (-1) 0 (by decide) (by decide) (by decide) (by decide)
      (by decide) (fun _ _ => rfl),
   by decide, by decide, by decide,
   (pages_map_mismatch_released cfg64 4096 4096 false (by decide)).2.1 placeAbove st_init
      emptyWorld 8192 _
      (exact_mmap_at 64 placeAbove emptyWorld.os 4096 4096 PAGES_PROT_COMMIT
        (pages_boot st_init).mmap_flags (-1) 0 (by decide) (by decide) (by decide) (by decide)
        (by decide) (fun _ _ => rfl))
      (by decide) (by decide) (by decide)⟩

/-! ## Reserve then release (C6) -/

/-- C6: in the address-space model, after `pages_boot`, let the mapping request
of `pages_map(NULL, S, commit = true)` for a size `S > 0` succeed at `r` (so `r`
is a free range).  Then `pages_map` returns `r`, which is not NULL, with the
range mapped; the following `pages_unmap(r, S)` issues exactly
`munmap(r, S)`, returns without printing anything, and leaves the mapped set
equal to the one before `pages_map`. -/
theorem reserve_release_roundtrip (cfg : Config) (place : (Nat → Bool) → Nat → Nat → Nat)
    (st0 : PagesState) (s : World AddrSpace) (S r : Nat) (o : AddrSpace) (hS : 0 < S)
    (hm : (exactOS cfg.w place).mmap s.os NULL S PAGES_PROT_COMMIT
      (pages_boot st0).mmap_flags (-1) 0 = (r, o))
    (hf : r ≠ MAP_FAILED cfg.w) :
    ∃ s1 : World AddrSpace,
      pages_map cfg (exactOS cfg.w place) (pages_boot st0) s NULL S true =
        Outcome.ret (r, true) s1 ∧
      r ≠ NULL ∧
      (∀ a, r ≤ a → a < r + S → s.os.mapped a = false ∧ s1.os.mapped a = true) ∧
      ∃ s2 : World AddrSpace,
        pages_unmap cfg (exactOS cfg.w place) s1 r S = Outcome.ret () s2 ∧
        newCalls s1 s2 = [SysCall.munmap r S] ∧
        s2.out = s.out ∧
        s2.os.mapped = s.os.mapped := by
  have hS0 : S ≠ 0 := by omega
  obtain ⟨hn, _, _, hfree, ho⟩ :=
    exact_mmap_success cfg.w place s.os NULL S PAGES_PROT_COMMIT
      (pages_boot st0).mmap_flags (-1) 0 r o (boot_flags_not_fixed st0) hm hf
  rw [pages_map_placed cfg (exactOS cfg.w place) (pages_boot st0) s NULL S true r o
    (fun _ => hS0) hm hf (fun _ => hn) (Or.inl rfl)]
  refine ⟨_, rfl, hn, ?_, ?_⟩
  · intro a h1 h2
    refine ⟨hfree a h1 h2, ?_⟩
    have hin : inRange a r S = true := (inRange_iff a r S).mpr ⟨h1, h2⟩
    by_cases hand : (cfg.android && r != NULL) = true
    · rw [if_pos hand]
      simp [sys_prctl, exactOS, ho, hin]
    · rw [if_neg hand]
      simp [ho, hin]
  · have hos : ∀ x : World AddrSpace, x.os = o →
        ((exactOS cfg.w place).munmap x.os r S).1 ≠ -1 := by
      intro x hx
      rw [exact_munmap cfg.w place x.os r S hS0]; simp
    by_cases hand : (cfg.android && r != NULL) = true
    · rw [if_pos hand]
      rw [pages_unmap_ok cfg (exactOS cfg.w place) _ r S (hos _ (by simp [sys_prctl, exactOS]))]
      refine ⟨_, rfl, ?_, ?_, ?_⟩
      · apply newCalls_append; rfl
      · simp [sys_prctl]
      · show ((exactOS cfg.w place).munmap _ r S).2.mapped = s.os.mapped
        rw [exact_munmap cfg.w place _ r S hS0]
        simp only [sys_prctl, exactOS, ho]
        exact map_unmap_mapped s.os.mapped r S hfree
    · rw [if_neg hand]
      rw [pages_unmap_ok cfg (exactOS cfg.w place) _ r S (hos _ rfl)]
      refine ⟨_, rfl, ?_, rfl, ?_⟩
      · apply newCalls_append; rfl
      · show ((exactOS cfg.w place).munmap o r S).2.mapped = s.os.mapped
        rw [exact_munmap cfg.w place o r S hS0, ho]
        exact map_unmap_mapped s.os.mapped r S hfree

/-- C6 at a concrete input: one page reserved without hint in the empty
address space, where the model places it at 0x2000, and released again. -/
theorem reserve_release_roundtrip_witness :
    (0 < 4096) ∧
    ((exactOS cfg64.w placeAbove).mmap emptyWorld.os NULL 4096 PAGES_PROT_COMMIT
        (pages_boot st_init).mmap_flags (-1) 0 =
      (8192, { emptyWorld.os with
                mapped := fun a => emptyWorld.os.mapped a || inRange a 8192 4096 })) ∧
    ((8192 : Nat) ≠ MAP_FAILED cfg64.w) ∧
    ∃ s1 : World AddrSpace,
      pages_map cfg64 (exactOS cfg64.w placeAbove) (pages_boot st_init) emptyWorld NULL 4096
          true = Outcome.ret (8192, true) s1 ∧
      (8192 : Nat) ≠ NULL ∧
      (∀ a, 8192 ≤ a → a < 8192 + 4096 →
        emptyWorld.os.mapped a = false ∧ s1.os.mapped a = true) ∧
      ∃ s2 : World AddrSpace,
        pages_unmap cfg64 (exactOS cfg64.w placeAbove) s1 8192 4096 = Outcome.ret () s2 ∧
        newCalls s1 s2 = [SysCall.munmap 8192 4096] ∧
        s2.out = emptyWorld.out ∧
        s2.os.mapped = emptyWorld.os.mapped :=
  ⟨by decide,
   exact_mmap_at 64 placeAbove emptyWorld.os NULL 4096 PAGES_PROT_COMMIT
      (pages_boot st_init).mmap_flags (-1) 0 (by decide) (by decide) (by decide) (by decide)
      (by decide) (fun _ _ => rfl),
   by decide,
   reserve_release_roundtrip cfg64 placeAbove st_init emptyWorld 4096 8192 _ (by decide)
      (exact_mmap_at 64 placeAbove emptyWorld.os NULL 4096 PAGES_PROT_COMMIT
        (pages_boot st_init).mmap_flags (-1) 0 (by decide) (by decide) (by decide) (by decide)
        (by decide) (fun _ _ => rfl))
      (by decide)⟩

/-! ## Arithmetic of `pages_trim` -/

theorem wsub_eq (w a b : Nat) (ha : a < 2 ^ w) (hb : b ≤ a) : wsub w a b = a - b := by
  have hb2 : b < 2 ^ w := by omega
  unfold wsub
  rw [Nat.mod_eq_of_lt ha, Nat.mod_eq_of_lt hb2]
  have : a + (2 ^ w - b) = (a - b) + 2 ^ w := by omega
  rw [this, Nat.add_mod_right]
  exact Nat.mod_eq_of_lt (by omega)

theorem wadd_eq (w a b : Nat) (h : a + b < 2 ^ w) : wadd w a b = a + b := by
  unfold wadd
  exact Nat.mod_eq_of_lt h

theorem wadd_le (w a b : Nat) : wadd w a b ≤ a + b := by
  unfold wadd
  exact Nat.mod_le _ _

theorem trim_guard_of_le (w alloc_size leadsize size : Nat) (h : leadsize + size ≤ alloc_size) :
    trim_guard w alloc_size leadsize size = true := by
  have := wadd_le w leadsize size
  simp only [trim_guard, ge_iff_le, decide_eq_true_eq]
  omega

theorem trim_trailsize_eq (w alloc_size leadsize size : Nat) (ha : alloc_size < 2 ^ w)
    (h : leadsize + size ≤ alloc_size) :
    trim_trailsize w alloc_size leadsize size = alloc_size - leadsize - size := by
  unfold trim_trailsize
  rw [wsub_eq w alloc_size leadsize ha (by omega)]
  exact wsub_eq w (alloc_size - leadsize) size (by omega) (by omega)

/-- With sizes that do not wrap, `pages_trim` is the release of the lead, then
the release of the trail, then the return of `addr + leadsize`. -/
theorem pages_trim_steps {σ : Type} (cfg : Config) (os : OS σ) (s : World σ)
    (addr alloc_size leadsize size : Nat) (commit : Bool)
    (hal : alloc_size < 2 ^ cfg.w) (hg : leadsize + size ≤ alloc_size)
    (hr : addr + alloc_size ≤ 2 ^ cfg.w) :
    pages_trim cfg os s addr alloc_size leadsize size commit =
      ((if leadsize != 0 then pages_unmap cfg os s addr leadsize
        else Outcome.ret () s).bind fun _ s2 =>
       (if alloc_size - leadsize - size != 0 then
          pages_unmap cfg os s2 (addr + leadsize + size) (alloc_size - leadsize - size)
        else Outcome.ret () s2).bind fun _ s3 =>
       Outcome.ret (wadd cfg.w addr leadsize, commit) s3) := by
  unfold pages_trim
  rw [jassert_of cfg _ _ s (trim_guard_of_le cfg.w alloc_size leadsize size hg), bind_ret,
    trim_trailsize_eq cfg.w alloc_size leadsize size hal hg]
  by_cases ht : alloc_size - leadsize - size = 0
  · simp [ht]
  · have h1 : addr + leadsize < 2 ^ cfg.w := by omega
    have h2 : addr + leadsize + size < 2 ^ cfg.w := by omega
    rw [wadd_eq cfg.w addr leadsize h1, wadd_eq cfg.w (addr + leadsize) size h2]

/-! ## `pages_unmap` on the address-space model -/

theorem exact_unmap_opt (cfg : Config) (place : (Nat → Bool) → Nat → Nat → Nat)
    (s : World AddrSpace) (a n : Nat) :
    ∃ s1 : World AddrSpace,
      (if n != 0 then pages_unmap cfg (exactOS cfg.w place) s a n else Outcome.ret () s) =
        Outcome.ret () s1 ∧
      s1.out = s.out ∧
      s1.trace = s.trace ++ (if n ≠ 0 then [SysCall.munmap a n] else []) ∧
      ∀ x, s1.os.mapped x = (s.os.mapped x && !inRange x a n) := by
  by_cases hn : n = 0
  · subst hn
    refine ⟨s, by simp, rfl, by simp, ?_⟩
    intro x
    have : inRange x a 0 = false := by
      simp [inRange]
    simp [this]
  · have hu : ((exactOS cfg.w place).munmap s.os a n).1 ≠ -1 := by
      rw [exact_munmap cfg.w place s.os a n hn]; simp
    refine ⟨{ os := ((exactOS cfg.w place).munmap s.os a n).2,
              trace := s.trace ++ [SysCall.munmap a n], out := s.out }, ?_, rfl, ?_, ?_⟩
    · simp only [bne_iff_ne, ne_eq, hn, not_false_eq_true, if_true]
      exact pages_unmap_ok cfg (exactOS cfg.w place) s a n hu
    · simp [hn]
    · intro x
      show ((exactOS cfg.w place).munmap s.os a n).2.mapped x = _
      rw [exact_munmap cfg.w place s.os a n hn]

theorem unmap_opt_trace {σ : Type} (cfg : Config) (os : OS σ) (s : World σ) (a n : Nat) :
    (if n != 0 then pages_unmap cfg os s a n else Outcome.ret () s).world.trace =
      s.trace ++ (if n ≠ 0 then [SysCall.munmap a n] else []) := by
  by_cases hn : n = 0
  · simp [hn, Outcome.world]
  · simp only [bne_iff_ne, ne_eq, hn, not_false_eq_true, if_true]
    exact pages_unmap_trace cfg os s a n

/-- The system calls of a `pages_trim` whose sizes do not wrap: the expected
release requests, all of them unless the lead release aborted. -/
theorem pages_trim_calls {σ : Type} (cfg : Config) (os : OS σ) (s : World σ)
    (addr alloc_size leadsize size : Nat) (commit : Bool)
    (hal : alloc_size < 2 ^ cfg.w) (hg : leadsize + size ≤ alloc_size)
    (hr : addr + alloc_size ≤ 2 ^ cfg.w) :
    (newCalls s (pages_trim cfg os s addr alloc_size leadsize size commit).world =
        (if leadsize ≠ 0 then [SysCall.munmap addr leadsize] else []) ++
        (if alloc_size - leadsize - size ≠ 0 then
          [SysCall.munmap (addr + leadsize + size) (alloc_size - leadsize - size)] else []) ∨
      ((pages_trim cfg os s addr alloc_size leadsize size commit).returned = false ∧
        newCalls s (pages_trim cfg os s addr alloc_size leadsize size commit).world =
          (if leadsize ≠ 0 then [SysCall.munmap addr leadsize] else []))) := by
  rw [pages_trim_steps cfg os s addr alloc_size leadsize size commit hal hg hr]
  have t1 := unmap_opt_trace cfg os s addr leadsize
  cases h1 : (if leadsize != 0 then pages_unmap cfg os s addr leadsize
      else Outcome.ret () s) with
  | aborted s1 =>
    right
    rw [h1] at t1
    rw [bind_aborted]
    exact ⟨rfl, newCalls_append s _ _ t1⟩
  | ret u s2 =>
    left
    rw [h1] at t1
    rw [bind_ret]
    have t2 := unmap_opt_trace cfg os s2 (addr + leadsize + size)
      (alloc_size - leadsize - size)
    apply newCalls_append
    rw [bind_const_world, t2]
    simp only [Outcome.world] at t1
    rw [t1, List.append_assoc]

/-! ## Trim (C3) -/

/-- C3: on the address-space model (`munmap` removes exactly the given range),
for every `addr` and all sizes with `leadsize + size ≤ alloc_size` and the
reservation `[addr, addr + alloc_size)` mapped inside the address space,
`pages_trim` returns exactly `addr + leadsize` (with `*commit` as it was and
nothing printed), and afterwards: inside the original reservation an address
is mapped exactly when it lies in `[addr+leadsize, addr+leadsize+size)`; the
lead and the trail are unmapped; the kept window and every address outside the
reservation are as before. -/
theorem pages_trim_keeps_window (cfg : Config) (place : (Nat → Bool) → Nat → Nat → Nat)
    (s : World AddrSpace) (addr alloc_size leadsize size : Nat) (commit : Bool)
    (hg : alloc_size ≥ leadsize + size)
    (hmap : rangeMapped cfg.w s.os.mapped addr alloc_size) :
    ∃ s1 : World AddrSpace,
      pages_trim cfg (exactOS cfg.w place) s addr alloc_size leadsize size commit =
        Outcome.ret (addr + leadsize, commit) s1 ∧
      s1.out = s.out ∧
      (∀ a, addr ≤ a → a < addr + alloc_size →
        (s1.os.mapped a = true ↔ addr + leadsize ≤ a ∧ a < addr + leadsize + size)) ∧
      (∀ a, addr ≤ a → a < addr + leadsize → s1.os.mapped a = false) ∧
      (∀ a, addr + leadsize + size ≤ a → a < addr + alloc_size → s1.os.mapped a = false) ∧
      (∀ a, addr + leadsize ≤ a → a < addr + leadsize + size →
        s1.os.mapped a = s.os.mapped a) ∧
      (∀ a, (a < addr ∨ addr + alloc_size ≤ a) → s1.os.mapped a = s.os.mapped a) := by
  obtain ⟨hlt, hall⟩ := hmap
  have hal : alloc_size < 2 ^ cfg.w := by omega
  rw [pages_trim_steps cfg (exactOS cfg.w place) s addr alloc_size leadsize size commit hal
    (by omega) (by omega)]
  obtain ⟨s2, e2, o2, _, m2⟩ := exact_unmap_opt cfg place s addr leadsize
  rw [e2, bind_ret]
  obtain ⟨s3, e3, o3, _, m3⟩ :=
    exact_unmap_opt cfg place s2 (addr + leadsize + size) (alloc_size - leadsize - size)
  rw [e3, bind_ret, wadd_eq cfg.w addr leadsize (by omega)]
  have key : ∀ a, s3.os.mapped a = true ↔
      (s.os.mapped a = true ∧ ¬ (addr ≤ a ∧ a < addr + leadsize) ∧
        ¬ (addr + leadsize + size ≤ a ∧
            a < addr + leadsize + size + (alloc_size - leadsize - size))) := by
    intro a
    rw [m3 a, m2 a]
    simp only [Bool.and_eq_true, Bool.not_eq_true', ← Bool.not_eq_true, inRange_iff]
    tauto
  have keyf : ∀ a, s3.os.mapped a = false ↔ ¬ s3.os.mapped a = true := by
    intro a; simp
  refine ⟨s3, rfl, by rw [o3, o2], ?_, ?_, ?_, ?_, ?_⟩
  · intro a h1 h2
    rw [key a]
    have := hall a h1 h2
    constructor
    · rintro ⟨_, h3, h4⟩; omega
    · intro h; exact ⟨this, by omega, by omega⟩
  · intro a h1 h2
    rw [keyf, key a]
    rintro ⟨_, h3, _⟩; exact h3 ⟨h1, h2⟩
  · intro a h1 h2
    rw [keyf, key a]
    rintro ⟨_, _, h4⟩; exact h4 ⟨h1, by omega⟩
  · intro a h1 h2
    have hm := hall a (by omega) (by omega)
    rw [hm, key a]
    exact ⟨hm, by omega, by omega⟩
  · intro a h
    cases hs : s.os.mapped a
    · rw [keyf, key a]
      rintro ⟨h0, _⟩; rw [hs] at h0; cases h0
    · rw [key a]
      exact ⟨hs, by omega, by omega⟩

/-- C3 at the input of the specification: three mapped pages at 0x1000, trimmed
with `leadsize` and `size` of one page each; the result is 0x2000 and the first
and third page are unmapped. -/
theorem pages_trim_keeps_window_witness :
    (3 * 4096 ≥ 4096 + 4096) ∧
    rangeMapped cfg64.w threePages.os.mapped 4096 (3 * 4096) ∧
    ∃ s1 : World AddrSpace,
      pages_trim cfg64 (exactOS cfg64.w placeAbove) threePages 4096 (3 * 4096) 4096 4096
          true = Outcome.ret (4096 + 4096, true) s1 ∧
      (∀ a, 4096 ≤ a → a < 4096 + 4096 → s1.os.mapped a = false) ∧
      (∀ a, 4096 + 4096 + 4096 ≤ a → a < 4096 + 3 * 4096 → s1.os.mapped a = false) ∧
      (∀ a, 4096 + 4096 ≤ a → a < 4096 + 4096 + 4096 → s1.os.mapped a = true) :=
  have hm : rangeMapped cfg64.w threePages.os.mapped 4096 (3 * 4096) :=
    ⟨by decide, fun a h1 h2 => (inRange_iff a 4096 (3 * 4096)).mpr ⟨h1, h2⟩⟩
  ⟨by decide, hm,
   by
    obtain ⟨s1, h1, _, h3, h4, h5, _⟩ :=
      pages_trim_keeps_window cfg64 placeAbove threePages 4096 (3 * 4096) 4096 4096 true
        (by decide) hm
    exact ⟨s1, h1, h4, h5, fun a ha hb => (h3 a (by omega) (by omega)).mpr ⟨ha, hb⟩⟩⟩

/-! ## Trim: size arithmetic (C10) -/

/-- An optional release that does not abort: it returns, its call is logged
when the length is not 0, and the OS state is the one `munmap` left. -/
theorem unmap_opt_ret {σ : Type} (cfg : Config) (os : OS σ) (s : World σ) (a n : Nat)
    (h : ¬ (n ≠ 0 ∧ (os.munmap s.os a n).1 = -1 ∧ cfg.opt_abort = true)) :
    ∃ s1 : World σ,
      (if n != 0 then pages_unmap cfg os s a n else Outcome.ret () s) = Outcome.ret () s1 ∧
      s1.trace = s.trace ++ (if n ≠ 0 then [SysCall.munmap a n] else []) ∧
      s1.os = (if n ≠ 0 then (os.munmap s.os a n).2 else s.os) := by
  by_cases hn : n = 0
  · exact ⟨s, by simp [hn], by simp [hn], by simp [hn]⟩
  · by_cases hu : (os.munmap s.os a n).1 = -1
    · have hab : cfg.opt_abort = false := by
        cases hc : cfg.opt_abort
        · rfl
        · exact absurd ⟨hn, hu, hc⟩ h
      refine ⟨{ os := (os.munmap s.os a n).2, trace := s.trace ++ [SysCall.munmap a n],
                out := s.out ++ ["<jemalloc>: Error in munmap(): " ++
                  cfg.buferror (os.get_errno (os.munmap s.os a n).2) ++ "\n"] }, ?_, ?_, ?_⟩
      · simp [hn, pages_unmap, sys_munmap, hu, hab]
      · simp [hn]
      · simp [hn]
    · refine ⟨{ os := (os.munmap s.os a n).2, trace := s.trace ++ [SysCall.munmap a n],
                out := s.out }, ?_, ?_, ?_⟩
      · simp only [bne_iff_ne, ne_eq, hn, not_false_eq_true, if_true]
        exact pages_unmap_ok cfg os s a n hu
      · simp [hn]
      · simp [hn]

/-- An optional release that aborts: the length is not 0, `munmap` answered -1
and `opt_abort` is set; the call is logged and the run ends. -/
theorem unmap_opt_abort {σ : Type} (cfg : Config) (os : OS σ) (s : World σ) (a n : Nat)
    (hn : n ≠ 0) (hu : (os.munmap s.os a n).1 = -1) (hab : cfg.opt_abort = true) :
    ∃ s1 : World σ,
      (if n != 0 then pages_unmap cfg os s a n else Outcome.ret () s) = Outcome.aborted s1 ∧
      s1.trace = s.trace ++ [SysCall.munmap a n] := by
  refine ⟨{ os := (os.munmap s.os a n).2, trace := s.trace ++ [SysCall.munmap a n],
            out := s.out ++ ["<jemalloc>: Error in munmap(): " ++
              cfg.buferror (os.get_errno (os.munmap s.os a n).2) ++ "\n"] }, ?_, rfl⟩
  simp [hn, pages_unmap, sys_munmap, hu, hab]

/-- C10, as stated, fails on a 64-bit target.  First input: `alloc_size` one
page, `leadsize = 2^63`, `size = 2^63 + 4096`; the sum wraps to 4096, so the
assertion passes, yet `leadsize + size + trailsize` is not `alloc_size` and
the lead range handed to `munmap` ends far outside the reservation; that
request is the first call whatever the OS answers (shown on an OS whose
`munmap` fails and on one whose `munmap` succeeds).  Second input: a
three-page reservation starting two pages below the top of the address space;
the sizes do not wrap and the assertion passes, but the trail address wraps to
0, outside the reservation; the trail request is issued whenever the lead
release returns (shown with a failing `munmap` and `opt_abort` clear, and with
a succeeding `munmap`). -/
theorem trim_guard_wraps :
    (trim_guard 64 4096 (2 ^ 63) (2 ^ 63 + 4096) = true ∧
      2 ^ 63 + (2 ^ 63 + 4096) + trim_trailsize 64 4096 (2 ^ 63) (2 ^ 63 + 4096) ≠ 4096 ∧
      newCalls unitWorld
          (pages_trim cfg64 failingOS unitWorld 4096 4096 (2 ^ 63) (2 ^ 63 + 4096)
            true).world =
        [SysCall.munmap 4096 (2 ^ 63)] ∧
      newCalls unitWorld
          (pages_trim cfg64 okOS unitWorld 4096 4096 (2 ^ 63) (2 ^ 63 + 4096)
            true).world =
        [SysCall.munmap 4096 (2 ^ 63)] ∧
      ¬ (4096 + 2 ^ 63 ≤ 4096 + 4096)) ∧
    (trim_guard 64 (3 * 4096) 4096 4096 = true ∧
      4096 + 4096 + trim_trailsize 64 (3 * 4096) 4096 4096 = 3 * 4096 ∧
      newCalls unitWorld
          (pages_trim cfg64_noabort failingOS unitWorld (2 ^ 64 - 8192) (3 * 4096) 4096 4096
            true).world =
        [SysCall.munmap (2 ^ 64 - 8192) 4096, SysCall.munmap 0 4096] ∧
      newCalls unitWorld
          (pages_trim cfg64 okOS unitWorld (2 ^ 64 - 8192) (3 * 4096) 4096 4096
            true).world =
        [SysCall.munmap (2 ^ 64 - 8192) 4096, SysCall.munmap 0 4096] ∧
      ¬ (2 ^ 64 - 8192 ≤ 0)) := by
  refine ⟨⟨by decide, by decide, by decide, by decide, by decide⟩,
    ⟨by decide, by decide, by decide, by decide, by decide⟩⟩

/-- C10, amended: for all `size_t` values with `leadsize + size ≤ alloc_size`
as natural numbers (so the sum does not wrap and the assertion passes) and a
reservation `[addr, addr + alloc_size)` that lies inside the address space:
`trailsize = alloc_size - leadsize - size` does not wrap and
`leadsize + size + trailsize = alloc_size`.  The lead release aborts the
process exactly when `leadsize ≠ 0`, its `munmap` answers -1 and `opt_abort` is
set; then the calls are that one request.  In every other case the calls are
`munmap(addr, leadsize)` exactly when `leadsize ≠ 0`, followed by
`munmap(addr + leadsize + size, trailsize)` exactly when `trailsize ≠ 0`; the
run then fails to return only when the trail release aborts (non-zero
`trailsize`, answer -1, `opt_abort` set), and otherwise returns the pointer
`addr + leadsize` (modulo `2 ^ w`) with `*commit` unchanged.  Every request
issued has a non-zero length and lies inside the reservation. -/
theorem pages_trim_size_arith {σ : Type} (cfg : Config) (os : OS σ) (s : World σ)
    (addr alloc_size leadsize size : Nat) (commit : Bool)
    (hal : alloc_size < 2 ^ cfg.w) (hg : leadsize + size ≤ alloc_size)
    (hr : addr + alloc_size ≤ 2 ^ cfg.w) :
    trim_guard cfg.w alloc_size leadsize size = true ∧
    trim_trailsize cfg.w alloc_size leadsize size = alloc_size - leadsize - size ∧
    leadsize + size + trim_trailsize cfg.w alloc_size leadsize size = alloc_size ∧
    ((leadsize ≠ 0 ∧ (os.munmap s.os addr leadsize).1 = -1 ∧ cfg.opt_abort = true) →
      (pages_trim cfg os s addr alloc_size leadsize size commit).returned = false ∧
      newCalls s (pages_trim cfg os s addr alloc_size leadsize size commit).world =
        [SysCall.munmap addr leadsize]) ∧
    (¬ (leadsize ≠ 0 ∧ (os.munmap s.os addr leadsize).1 = -1 ∧ cfg.opt_abort = true) →
      newCalls s (pages_trim cfg os s addr alloc_size leadsize size commit).world =
        (if leadsize ≠ 0 then [SysCall.munmap addr leadsize] else []) ++
        (if trim_trailsize cfg.w alloc_size leadsize size ≠ 0 then
          [SysCall.munmap (addr + leadsize + size)
            (trim_trailsize cfg.w alloc_size leadsize size)] else []) ∧
      ((pages_trim cfg os s addr alloc_size leadsize size commit).returned = false ↔
        (trim_trailsize cfg.w alloc_size leadsize size ≠ 0 ∧
          (os.munmap (if leadsize ≠ 0 then (os.munmap s.os addr leadsize).2 else s.os)
            (addr + leadsize + size) (trim_trailsize cfg.w alloc_size leadsize size)).1 = -1 ∧
          cfg.opt_abort = true)) ∧
      ((pages_trim cfg os s addr alloc_size leadsize size commit).returned = true →
        (pages_trim cfg os s addr alloc_size leadsize size commit).value =
          some (wadd cfg.w addr leadsize, commit))) ∧
    (∀ c ∈ newCalls s (pages_trim cfg os s addr alloc_size leadsize size commit).world,
      ∃ a n, c = SysCall.munmap a n ∧ n ≠ 0 ∧ addr ≤ a ∧ a + n ≤ addr + alloc_size) := by
  have ht := trim_trailsize_eq cfg.w alloc_size leadsize size hal hg
  have hc := pages_trim_calls cfg os s addr alloc_size leadsize size commit hal hg hr
  refine ⟨trim_guard_of_le cfg.w alloc_size leadsize size hg, ht, by rw [ht]; omega,
    ?_, ?_, ?_⟩
  · rintro ⟨hl, hu, hab⟩
    rw [pages_trim_steps cfg os s addr alloc_size leadsize size commit hal hg hr]
    obtain ⟨s1, e1, t1⟩ := unmap_opt_abort cfg os s addr leadsize hl hu hab
    rw [e1, bind_aborted]
    exact ⟨rfl, newCalls_append s _ _ t1⟩
  · intro hno
    rw [ht, pages_trim_steps cfg os s addr alloc_size leadsize size commit hal hg hr]
    obtain ⟨s2, e2, t2, o2⟩ := unmap_opt_ret cfg os s addr leadsize hno
    rw [e2, bind_ret, ← o2]
    have t3 := unmap_opt_trace cfg os s2 (addr + leadsize + size)
      (alloc_size - leadsize - size)
    refine ⟨?_, ?_, ?_⟩
    · apply newCalls_append
      rw [bind_const_world, t3, t2, List.append_assoc]
    · by_cases hab : (alloc_size - leadsize - size ≠ 0 ∧
          (os.munmap s2.os (addr + leadsize + size) (alloc_size - leadsize - size)).1 = -1 ∧
          cfg.opt_abort = true)
      · obtain ⟨s3, e3, _⟩ := unmap_opt_abort cfg os s2 (addr + leadsize + size)
          (alloc_size - leadsize - size) hab.1 hab.2.1 hab.2.2
        rw [e3, bind_aborted]
        exact ⟨fun _ => hab, fun _ => rfl⟩
      · obtain ⟨s3, e3, _⟩ := unmap_opt_ret cfg os s2 (addr + leadsize + size)
          (alloc_size - leadsize - size) hab
        rw [e3, bind_ret]
        constructor
        · intro h; simp [Outcome.returned] at h
        · intro h; exact absurd h hab
    · intro hret
      cases e3 : (if alloc_size - leadsize - size != 0 then
          pages_unmap cfg os s2 (addr + leadsize + size) (alloc_size - leadsize - size)
        else Outcome.ret () s2) with
      | ret u s3 => rw [bind_ret]; rfl
      | aborted s3 =>
        rw [e3, bind_aborted] at hret
        simp [Outcome.returned] at hret
  · intro c hmem
    have hmem2 : c ∈ (if leadsize ≠ 0 then [SysCall.munmap addr leadsize] else []) ++
        (if alloc_size - leadsize - size ≠ 0 then
          [SysCall.munmap (addr + leadsize + size) (alloc_size - leadsize - size)]
         else []) := by
      rcases hc with hc | ⟨_, hc⟩
      · rw [hc] at hmem; exact hmem
      · rw [hc] at hmem; exact List.mem_append_left _ hmem
    rcases List.mem_append.mp hmem2 with h | h
    · by_cases hl : leadsize = 0
      · simp [hl] at h
      · simp only [ne_eq, hl, not_false_eq_true, if_true, List.mem_singleton] at h
        exact ⟨addr, leadsize, h, hl, le_refl _, by omega⟩
    · by_cases hl : alloc_size - leadsize - size = 0
      · simp [hl] at h
      · simp only [ne_eq, hl, not_false_eq_true, if_true, List.mem_singleton] at h
        exact ⟨addr + leadsize + size, alloc_size - leadsize - size, h, hl, by omega,
          by omega⟩

/-- C10 at concrete inputs: three pages at 0x1000 trimmed to the middle one.
On the address-space model both one-page releases are issued and the run
returns 0x2000; on an OS whose `munmap` fails, with `opt_abort` set, the run
is aborted after the lead request. -/
theorem pages_trim_size_arith_witness :
    (3 * 4096 < 2 ^ cfg64.w) ∧ (4096 + 4096 ≤ 3 * 4096) ∧ (4096 + 3 * 4096 ≤ 2 ^ cfg64.w) ∧
    4096 + 4096 + trim_trailsize cfg64.w (3 * 4096) 4096 4096 = 3 * 4096 ∧
    (¬ ((4096 : Nat) ≠ 0 ∧ ((exactOS 64 placeAbove).munmap threePages.os 4096 4096).1 = -1 ∧
        cfg64.opt_abort = true)) ∧
    newCalls threePages
        (pages_trim cfg64 (exactOS 64 placeAbove) threePages 4096 (3 * 4096) 4096 4096
          true).world =
      (if (4096 : Nat) ≠ 0 then [SysCall.munmap 4096 4096] else []) ++
      (if trim_trailsize cfg64.w (3 * 4096) 4096 4096 ≠ 0 then
        [SysCall.munmap (4096 + 4096 + 4096) (trim_trailsize cfg64.w (3 * 4096) 4096 4096)]
       else []) ∧
    ((4096 : Nat) ≠ 0 ∧ (failingOS.munmap unitWorld.os 4096 4096).1 = -1 ∧
        cfg64.opt_abort = true) ∧
    (pages_trim cfg64 failingOS unitWorld 4096 (3 * 4096) 4096 4096 true).returned = false ∧
    newCalls unitWorld
        (pages_trim cfg64 failingOS unitWorld 4096 (3 * 4096) 4096 4096 true).world =
      [SysCall.munmap 4096 4096] :=
  ⟨by decide, by decide, by decide,
   (pages_trim_size_arith cfg64 (exactOS 64 placeAbove) threePages 4096 (3 * 4096) 4096 4096
      true (by decide) (by decide) (by decide)).2.2.1,
   by decide,
   ((pages_trim_size_arith cfg64 (exactOS 64 placeAbove) threePages 4096 (3 * 4096) 4096 4096
      true (by decide) (by decide) (by decide)).2.2.2.2.1 (by decide)).1,
   by decide,
   ((pages_trim_size_arith cfg64 failingOS unitWorld 4096 (3 * 4096) 4096 4096
      true (by decide) (by decide) (by decide)).2.2.2.1 (by decide)).1,
   ((pages_trim_size_arith cfg64 failingOS unitWorld 4096 (3 * 4096) 4096 4096
      true (by decide) (by decide) (by decide)).2.2.2.1 (by decide)).2⟩

end Pages
